import Mathlib

/-!
Verification development for the job-tracker browser extension's AI
extraction engine (`src/content-scripts/ai-extractor.ts` and
`src/utils/ai-utils.ts`).

The TypeScript code is shallowly embedded as pure Lean functions:

* wall-clock reads (`Date.now()`) become explicit `now : Int` parameters;
* the mutable singleton `window.extractionState` becomes an explicit
  `Option ExtractionState` value threaded through the gate functions;
* asynchronous collaborators (the Chrome storage cache, the on-device
  language-model session, the two inference prompt calls) become an
  explicit environment record describing the value each `await` resolves
  to in a given run, and the side effects of a run (prompt calls made,
  progressive field callbacks, cache writes, gate completion marks)
  are collected in an explicit event trace;
* JavaScript strings are modelled by Lean `String` (a JS string index is
  a UTF-16 unit; the inputs analysed here are ASCII so the distinction
  is immaterial).
-/

namespace JobTracker

/-! ## Extraction gate (ai-extractor.ts lines 929-1066)

`window.extractionState` from `graphql-client.ts` (global declaration):
`{ isExtracting, lastExtractionUrl, lastExtractionTime, extractionCount }`.
-/

structure ExtractionState where
  isExtracting : Bool
  lastExtractionUrl : String
  lastExtractionTime : Int
  extractionCount : Nat
deriving Repr, DecidableEq

/-- The state `shouldPerformExtraction` installs when
`window.extractionState` is absent (ai-extractor.ts lines 942-947). -/
def initialExtractionState (currentUrl : String) : ExtractionState :=
  { isExtracting := false
  , lastExtractionUrl := currentUrl
  , lastExtractionTime := 0
  , extractionCount := 0 }

/-- `shouldPerformExtraction` (ai-extractor.ts lines 929-1001).
Returns the decision together with the possibly-initialized
`window.extractionState`.  `currentUrl` is `window.location.href` and
`now` is `Date.now()` (the source reads the clock twice in quick
succession; both reads are modelled by the single value `now`). -/
def shouldPerformExtraction (state : Option ExtractionState)
    (currentUrl : String) (now : Int) (force : Bool) :
    Bool × Option ExtractionState :=
  match state with
  | none => (true, some (initialExtractionState currentUrl))
  | some s =>
    if force then (true, some s)
    else if s.isExtracting then (false, some s)
    else if s.lastExtractionUrl = currentUrl ∧ now - s.lastExtractionTime < 10000 then
      (false, some s)
    else if s.lastExtractionUrl ≠ currentUrl then (true, some s)
    else if 5 ≤ s.extractionCount ∧ now - s.lastExtractionTime < 60000 then
      (false, some s)
    else (true, some s)

/-- `markExtractionStarted` (ai-extractor.ts lines 1006-1019). -/
def markExtractionStarted (state : Option ExtractionState)
    (currentUrl : String) (now : Int) : ExtractionState :=
  let s := state.getD (initialExtractionState currentUrl)
  { isExtracting := true
  , lastExtractionUrl := currentUrl
  , lastExtractionTime := now
  , extractionCount := s.extractionCount + 1 }

/-- `markExtractionCompleted` (ai-extractor.ts lines 1053-1066): clears
`isExtracting` when the state exists.  The 60-second safety `setTimeout`
re-clears the same flag later and is idempotent on this model. -/
def markExtractionCompleted (state : Option ExtractionState) :
    Option ExtractionState :=
  state.map fun s => { s with isExtracting := false }

/-! ## JSON values and a strict `JSON.parse`

`parseAIResponse` (ai-utils.ts lines 223-362) repeatedly calls the host
`JSON.parse`; this section models JavaScript JSON values and a strict
RFC-8259 parser with the same acceptance behaviour (trailing commas,
single quotes, unquoted keys and raw control characters in strings are
all rejected — exactly the failures the "comprehensive fixes" exist to
repair).  Numbers are represented by their source lexeme; JavaScript
object-literal semantics (a later duplicate key overwrites the earlier
value in place) are modelled by `jsAssign`. -/

inductive Json where
  | null : Json
  | bool (b : Bool) : Json
  | num (lexeme : String) : Json
  | str (s : String) : Json
  | arr (elems : List Json) : Json
  | obj (fields : List (String × Json)) : Json

/-- JavaScript property assignment `o[k] = v` on a plain object:
overwrites in place when the key exists, otherwise appends. -/
def jsAssign (fields : List (String × Json)) (k : String) (v : Json) :
    List (String × Json) :=
  match fields with
  | [] => [(k, v)]
  | (k0, v0) :: rest =>
    if k0 = k then (k0, v) :: rest else (k0, v0) :: jsAssign rest k v

/-- JavaScript property read `o[k]`: `undefined` (here `none`) on
non-objects and missing keys. -/
def jsGet (j : Json) (k : String) : Option Json :=
  match j with
  | .obj fields => (fields.find? fun kv => kv.1 = k).map Prod.snd
  | _ => none

/-- Number of own keys, as in `Object.keys(o).length` (0 for
non-objects). -/
def jsKeyCount (j : Json) : Nat :=
  match j with
  | .obj fields => fields.length
  | _ => 0

/-- Does this JSON-number lexeme denote the number zero (the only falsy
numbers reachable from `JSON.parse` output)? -/
def jsNumIsZero (lexeme : String) : Bool :=
  let mantissa := lexeme.data.takeWhile fun c => c ≠ 'e' ∧ c ≠ 'E'
  (mantissa.filter Char.isDigit).all fun c => c = '0'

/-- JavaScript truthiness of a parsed JSON value. -/
def jsTruthy (j : Json) : Bool :=
  match j with
  | .null => false
  | .bool b => b
  | .num lex => ¬ jsNumIsZero lex
  | .str s => s ≠ ""
  | .arr _ => true
  | .obj _ => true

mutual

/-- JavaScript `String(v)` coercion for parsed JSON values.  A number is
rendered by its source lexeme (this model does not re-normalize numeric
formatting); arrays join their elements with `","` (with `null` rendered
empty, as in JS array join); objects render as `"[object Object]"`. -/
def jsToString (j : Json) : String :=
  match j with
  | .null => "null"
  | .bool b => if b then "true" else "false"
  | .num lex => lex
  | .str s => s
  | .arr xs => String.intercalate "," (jsToStringElems xs)
  | .obj _ => "[object Object]"

def jsToStringElems (xs : List Json) : List String :=
  match xs with
  | [] => []
  | Json.null :: rest => "" :: jsToStringElems rest
  | x :: rest => jsToString x :: jsToStringElems rest

end

/-- JSON whitespace (RFC 8259: space, tab, line feed, carriage return). -/
def isJsonWs (c : Char) : Bool :=
  c == ' ' || c == '\t' || c == '\n' || c == '\r'

def skipJsonWs : List Char → List Char
  | [] => []
  | c :: cs => if isJsonWs c then skipJsonWs cs else c :: cs

def hexVal (c : Char) : Option Nat :=
  if '0' ≤ c ∧ c ≤ '9' then some (c.toNat - 48)
  else if 'a' ≤ c ∧ c ≤ 'f' then some (c.toNat - 87)
  else if 'A' ≤ c ∧ c ≤ 'F' then some (c.toNat - 55)
  else none

/-- JSON string body parser (the opening quote has been consumed).
Rejects raw control characters and bad escapes, as `JSON.parse` does.
A `\uXXXX` escape denoting a lone UTF-16 surrogate half (which Lean's
`Char` cannot carry) is mapped to U+FFFD; no analysed input uses one. -/
def parseJsonStringAux (acc : List Char) : List Char → Option (String × List Char)
  | [] => none
  | c :: cs =>
    if c = '"' then some (String.mk acc.reverse, cs)
    else if c = '\\' then
      match cs with
      | [] => none
      | e :: cs2 =>
        if e = '"' then parseJsonStringAux ('"' :: acc) cs2
        else if e = '\\' then parseJsonStringAux ('\\' :: acc) cs2
        else if e = '/' then parseJsonStringAux ('/' :: acc) cs2
        else if e = 'b' then parseJsonStringAux ('\x08' :: acc) cs2
        else if e = 'f' then parseJsonStringAux ('\x0c' :: acc) cs2
        else if e = 'n' then parseJsonStringAux ('\n' :: acc) cs2
        else if e = 'r' then parseJsonStringAux ('\r' :: acc) cs2
        else if e = 't' then parseJsonStringAux ('\t' :: acc) cs2
        else if e = 'u' then
          match cs2 with
          | h1 :: h2 :: h3 :: h4 :: cs3 =>
            match hexVal h1, hexVal h2, hexVal h3, hexVal h4 with
            | some a, some b, some c2, some d =>
              let n := ((a * 16 + b) * 16 + c2) * 16 + d
              let ch := if h : n.isValidChar then Char.ofNatAux n h else '�'
              parseJsonStringAux (ch :: acc) cs3
            | _, _, _, _ => none
          | _ => none
        else none
    else if c.toNat < 32 then none
    else parseJsonStringAux (c :: acc) cs

def takeDigits : List Char → List Char × List Char
  | [] => ([], [])
  | c :: cs =>
    if c.isDigit then
      let (ds, r) := takeDigits cs
      (c :: ds, r)
    else ([], c :: cs)

/-- Strict JSON number: `-?(0|[1-9][0-9]*)(\.[0-9]+)?([eE][+-]?[0-9]+)?`.
Returns the accepted lexeme and the rest of the input. -/
def parseJsonNumber (cs : List Char) : Option (String × List Char) :=
  let (sign, cs1) : List Char × List Char :=
    match cs with
    | '-' :: r => (['-'], r)
    | _ => ([], cs)
  match cs1 with
  | [] => none
  | c :: r =>
    let intPart? : Option (List Char × List Char) :=
      if c = '0' then some (['0'], r)
      else if c.isDigit then
        let (ds, rest) := takeDigits r
        some (c :: ds, rest)
      else none
    match intPart? with
    | none => none
    | some (ip, r1) =>
      let frac? : Option (List Char × List Char) :=
        match r1 with
        | '.' :: r2 =>
          let (ds, rest) := takeDigits r2
          if ds = [] then none else some ('.' :: ds, rest)
        | _ => some ([], r1)
      match frac? with
      | none => none
      | some (fp, r2) =>
        let exp? : Option (List Char × List Char) :=
          match r2 with
          | e :: r3 =>
            if e = 'e' ∨ e = 'E' then
              let (sgn, r4) : List Char × List Char :=
                match r3 with
                | s :: r5 => if s = '+' ∨ s = '-' then ([s], r5) else ([], r3)
                | [] => ([], r3)
              let (ds, rest) := takeDigits r4
              if ds = [] then none else some (e :: (sgn ++ ds), rest)
            else some ([], e :: r3)
          | [] => some ([], [])
        match exp? with
        | none => none
        | some (ep, r3) =>
          some (String.mk (sign ++ ip ++ fp ++ ep), r3)

mutual

def parseJsonValue : Nat → List Char → Option (Json × List Char)
  | 0, _ => none
  | Nat.succ fuel, cs =>
    match skipJsonWs cs with
    | [] => none
    | c :: rest =>
      if c = '{' then
        match skipJsonWs rest with
        | '}' :: r2 => some (Json.obj [], r2)
        | r2 => parseJsonMembers fuel r2 []
      else if c = '[' then
        match skipJsonWs rest with
        | ']' :: r2 => some (Json.arr [], r2)
        | r2 => parseJsonElems fuel r2 []
      else if c = '"' then
        match parseJsonStringAux [] rest with
        | some (s, r2) => some (Json.str s, r2)
        | none => none
      else if c = 't' then
        match rest with
        | 'r' :: 'u' :: 'e' :: r2 => some (Json.bool true, r2)
        | _ => none
      else if c = 'f' then
        match rest with
        | 'a' :: 'l' :: 's' :: 'e' :: r2 => some (Json.bool false, r2)
        | _ => none
      else if c = 'n' then
        match rest with
        | 'u' :: 'l' :: 'l' :: r2 => some (Json.null, r2)
        | _ => none
      else if c = '-' ∨ c.isDigit then
        match parseJsonNumber (c :: rest) with
        | some (lex, r2) => some (Json.num lex, r2)
        | none => none
      else none

def parseJsonMembers : Nat → List Char → List (String × Json) →
    Option (Json × List Char)
  | 0, _, _ => none
  | Nat.succ fuel, cs, acc =>
    match skipJsonWs cs with
    | '"' :: r =>
      match parseJsonStringAux [] r with
      | some (k, r2) =>
        match skipJsonWs r2 with
        | ':' :: r3 =>
          match parseJsonValue fuel r3 with
          | some (v, r4) =>
            let acc2 := jsAssign acc k v
            match skipJsonWs r4 with
            | ',' :: r5 => parseJsonMembers fuel r5 acc2
            | '}' :: r5 => some (Json.obj acc2, r5)
            | _ => none
          | none => none
        | _ => none
      | none => none
    | _ => none

def parseJsonElems : Nat → List Char → List Json → Option (Json × List Char)
  | 0, _, _ => none
  | Nat.succ fuel, cs, acc =>
    match parseJsonValue fuel cs with
    | some (v, r) =>
      match skipJsonWs r with
      | ',' :: r2 => parseJsonElems fuel r2 (v :: acc)
      | ']' :: r2 => some (Json.arr (v :: acc).reverse, r2)
      | _ => none
    | none => none

end

/-- `JSON.parse` on a whole string: one value, optionally surrounded by
JSON whitespace; anything trailing is a syntax error.  The fuel
`2 * length + 2` dominates the recursion depth for any input. -/
def jsonParse (s : String) : Option Json :=
  match parseJsonValue (2 * s.length + 2) s.data with
  | some (v, rest) => if skipJsonWs rest = [] then some v else none
  | none => none

/-! ## JavaScript string operations used by `parseAIResponse`

Each function below embeds one concrete `String.prototype` call or one
regex `replace`/`match` from ai-utils.ts lines 223-362, with the actual
backtracking behaviour of the JavaScript regex engine worked out for the
specific pattern (greedy/lazy interplay noted at each definition).
Scanners carry explicit fuel (`length + 1` always suffices: every step
consumes at least one input character). -/

/-- JavaScript `\s` (the ASCII part; the analysed inputs contain no
exotic Unicode whitespace). -/
def jsIsWhitespace (c : Char) : Bool :=
  c == ' ' || c == '\t' || c == '\n' || c == '\r' || c == '\x0b' ||
    c == '\x0c' || c == ' '

/-- `String.prototype.trim`. -/
def jsTrim (cs : List Char) : List Char :=
  ((cs.dropWhile jsIsWhitespace).reverse.dropWhile jsIsWhitespace).reverse

def idxOfChar (cs : List Char) (c : Char) : Option Nat :=
  cs.findIdx? (· = c)

def lastIdxOfChar (cs : List Char) (c : Char) : Option Nat :=
  (cs.reverse.findIdx? (· = c)).map fun i => cs.length - 1 - i

def countChar (cs : List Char) (c : Char) : Nat :=
  (cs.filter (· = c)).length

def replaceSubAux (pat repl : List Char) : Nat → List Char → List Char →
    List Char
  | 0, out, cs => out.reverse ++ cs
  | Nat.succ fuel, out, cs =>
    if pat.isPrefixOf cs then
      replaceSubAux pat repl fuel (repl.reverse ++ out) (cs.drop pat.length)
    else
      match cs with
      | [] => out.reverse
      | c :: rest => replaceSubAux pat repl fuel (c :: out) rest

/-- `s.replace(pat, repl)` for a literal (regex-free) global pattern:
left-to-right, non-overlapping. -/
def replaceSub (pat repl cs : List Char) : List Char :=
  if pat = [] then cs else replaceSubAux pat repl (cs.length + 1) [] cs

def fenceMark : List Char := ['`', '`', '`']

def jsonWord : List Char := ['j', 's', 'o', 'n']

/-- Lazy-group scan for `([\s\S]*?)\s*\x60\x60\x60`: the group grows one
character at a time and at each boundary the greedy-then-backtracking
`\s*` succeeds exactly when skipping the whitespace run reaches a fence.
Returns the captured group and the input after the closing fence. -/
def fenceScan : Nat → List Char → List Char → Option (List Char × List Char)
  | 0, _, _ => none
  | Nat.succ fuel, acc, cs =>
    let t := cs.dropWhile jsIsWhitespace
    if fenceMark.isPrefixOf t then some (acc.reverse, t.drop 3)
    else
      match cs with
      | [] => none
      | c :: rest => fenceScan fuel (c :: acc) rest

/-- ai-utils.ts line 229:
`cleaned.replace(/\x60\x60\x60(?:json)?\s*([\s\S]*?)\s*\x60\x60\x60/g, "$1")`.
On a failed match attempt the engine advances the start position by one
character, exactly as the fallthrough branch does here. -/
def stripFencePairs (cs : List Char) : List Char :=
  stripFencePairsAux (cs.length + 1) [] cs
where
  stripFencePairsAux : Nat → List Char → List Char → List Char
  | 0, out, cs => out.reverse ++ cs
  | Nat.succ fuel, out, cs =>
    match cs with
    | [] => out.reverse
    | c :: rest =>
      if fenceMark.isPrefixOf (c :: rest) then
        let afterFence := (c :: rest).drop 3
        let afterJson :=
          if jsonWord.isPrefixOf afterFence then afterFence.drop 4
          else afterFence
        let body := afterJson.dropWhile jsIsWhitespace
        match fenceScan (body.length + 1) [] body with
        | some (group, rest2) =>
          stripFencePairsAux fuel (group.reverse ++ out) rest2
        | none => stripFencePairsAux fuel (c :: out) rest
      else stripFencePairsAux fuel (c :: out) rest

/-- `\s*\n` with greedy backtracking: consume up to and including the
LAST line feed inside the leading whitespace run. -/
def wsThenNewline (cs : List Char) : Option (List Char) :=
  let run := cs.takeWhile jsIsWhitespace
  match run.reverse.findIdx? (· = '\n') with
  | none => none
  | some i => some (cs.drop (run.length - i))

/-- ai-utils.ts line 230:
`/^\x60\x60\x60\s*json\s*\n([\s\S]*?)\n\x60\x60\x60$/g` — anchored, so it
either rewrites the whole string to the capture or leaves it alone. -/
def matchAnchoredJsonFence (cs : List Char) : Option (List Char) :=
  if fenceMark.isPrefixOf cs then
    let r1 := (cs.drop 3).dropWhile jsIsWhitespace
    if jsonWord.isPrefixOf r1 then
      match wsThenNewline (r1.drop 4) with
      | some r2 =>
        let tail4 : List Char := ['\n', '`', '`', '`']
        if 4 ≤ r2.length ∧ r2.drop (r2.length - 4) = tail4 then
          some (r2.take (r2.length - 4))
        else none
      | none => none
    else none
  else none

/-- ai-utils.ts line 231: `/^\x60\x60\x60\s*\n([\s\S]*?)\n\x60\x60\x60$/g`. -/
def matchAnchoredFence (cs : List Char) : Option (List Char) :=
  if fenceMark.isPrefixOf cs then
    match wsThenNewline (cs.drop 3) with
    | some r2 =>
      let tail4 : List Char := ['\n', '`', '`', '`']
      if 4 ≤ r2.length ∧ r2.drop (r2.length - 4) = tail4 then
        some (r2.take (r2.length - 4))
      else none
    | none => none
  else none

/-- ai-utils.ts lines 241-252: substring between the first `{` and the
last `}`, or — when only an opening brace exists (or the last `}`
precedes it) — the tail from the first `{` padded with the missing
closing braces. -/
def braceFromStart (cs : List Char) (sb : Nat) : List Char :=
  let t := cs.drop sb
  let opens := countChar t '{'
  let closes := countChar t '}'
  if closes < opens then t ++ List.replicate (opens - closes) '}' else t

def braceExtract (cs : List Char) : List Char :=
  match idxOfChar cs '{', lastIdxOfChar cs '}' with
  | some sb, some eb =>
    if sb < eb then (cs.take (eb + 1)).drop sb else braceFromStart cs sb
  | some sb, none => braceFromStart cs sb
  | none, _ => cs

/-- ai-utils.ts lines 226-255: trim, strip code fences (three regexes
plus a literal `\x60\x60\x60` sweep), re-trim, extract the brace-delimited
region, and drop any remaining non-`\x7b` prefix. -/
def cleanResponse (response : String) : String :=
  let cs := jsTrim response.data
  let cs := stripFencePairs cs
  let cs := match matchAnchoredJsonFence cs with
            | some g => g
            | none => cs
  let cs := match matchAnchoredFence cs with
            | some g => g
            | none => cs
  let cs := replaceSub fenceMark [] cs
  let cs := jsTrim cs
  let cs := braceExtract cs
  String.mk (cs.dropWhile (· ≠ '{'))

/-- ai-utils.ts line 264: `/,(\s*[}\]])/g → "$1"`. -/
def removeTrailingCommas (cs : List Char) : List Char :=
  removeTrailingCommasAux (cs.length + 1) [] cs
where
  removeTrailingCommasAux : Nat → List Char → List Char → List Char
  | 0, out, cs => out.reverse ++ cs
  | Nat.succ fuel, out, cs =>
    match cs with
    | [] => out.reverse
    | c :: rest =>
      if c = ',' then
        let ws := rest.takeWhile jsIsWhitespace
        match rest.drop ws.length with
        | b :: after2 =>
          if b = '}' ∨ b = ']' then
            removeTrailingCommasAux fuel (b :: (ws.reverse ++ out)) after2
          else removeTrailingCommasAux fuel (',' :: out) rest
        | [] => removeTrailingCommasAux fuel (',' :: out) rest
      else removeTrailingCommasAux fuel (c :: out) rest

/-- JavaScript `\w`. -/
def isWordChar (c : Char) : Bool :=
  c.isAlphanum || c = '_'

/-- ai-utils.ts line 265: `/([{,]\s*)(\w+):/g → "$1\"$2\":"` (quote
unquoted keys). -/
def quoteUnquotedKeys (cs : List Char) : List Char :=
  quoteUnquotedKeysAux (cs.length + 1) [] cs
where
  quoteUnquotedKeysAux : Nat → List Char → List Char → List Char
  | 0, out, cs => out.reverse ++ cs
  | Nat.succ fuel, out, cs =>
    match cs with
    | [] => out.reverse
    | c :: rest =>
      if c = '{' ∨ c = ',' then
        let ws := rest.takeWhile jsIsWhitespace
        let afterWs := rest.drop ws.length
        let w := afterWs.takeWhile isWordChar
        match w, afterWs.drop w.length with
        | _ :: _, ':' :: rest2 =>
          quoteUnquotedKeysAux fuel
            (':' :: '"' :: (w.reverse ++ ('"' :: (ws.reverse ++ (c :: out)))))
            rest2
        | _, _ => quoteUnquotedKeysAux fuel (c :: out) rest
      else quoteUnquotedKeysAux fuel (c :: out) rest

def qvFirstCharOk (c : Char) : Bool :=
  ¬(c = '"' ∨ c = ',' ∨ c = '{' ∨ c = '[' ∨ jsIsWhitespace c)

def qvBodyCharOk (c : Char) : Bool :=
  ¬(c = '"' ∨ c = ',' ∨ c = '}' ∨ c = ']')

/-- The `(\s*[,}\]])` trailer: skip the whitespace run, require a
terminator.  Returns (whitespace, terminator, rest). -/
def qvTrailer (cs : List Char) : Option (List Char × Char × List Char) :=
  let ws := cs.takeWhile jsIsWhitespace
  match cs.drop ws.length with
  | t :: rest =>
    if t = ',' ∨ t = '}' ∨ t = ']' then some (ws, t, rest) else none
  | [] => none

/-- Lazy scan for `[^",}\]]*?` followed by the trailer (the trailer is
tried first at every boundary, as the lazy quantifier does). -/
def qvBody : Nat → List Char → List Char →
    Option (List Char × List Char × Char × List Char)
  | 0, _, _ => none
  | Nat.succ fuel, acc, cs =>
    match qvTrailer cs with
    | some (ws, t, rest) => some (acc.reverse, ws, t, rest)
    | none =>
      match cs with
      | c :: rest =>
        if qvBodyCharOk c then qvBody fuel (c :: acc) rest else none
      | [] => none

/-- ai-utils.ts line 266:
`/:\s*([^",{[\s][^",}\]]*?)(\s*[,}\]])/g → ": \"$1\"$2"` (quote unquoted
values).  The uncaptured `\s*` after the colon is replaced by the literal
single space of the replacement template. -/
def quoteUnquotedValues (cs : List Char) : List Char :=
  quoteUnquotedValuesAux (cs.length + 1) [] cs
where
  quoteUnquotedValuesAux : Nat → List Char → List Char → List Char
  | 0, out, cs => out.reverse ++ cs
  | Nat.succ fuel, out, cs =>
    match cs with
    | [] => out.reverse
    | c :: rest =>
      if c = ':' then
        let ws := rest.takeWhile jsIsWhitespace
        match rest.drop ws.length with
        | f :: afterF =>
          if qvFirstCharOk f then
            match qvBody (afterF.length + 1) [] afterF with
            | some (body, tws, t, rest2) =>
              let emitted := ':' :: ' ' :: '"' :: f :: (body ++ ('"' :: (tws ++ [t])))
              quoteUnquotedValuesAux fuel (emitted.reverse ++ out) rest2
            | none => quoteUnquotedValuesAux fuel (':' :: out) rest
          else quoteUnquotedValuesAux fuel (':' :: out) rest
        | [] => quoteUnquotedValuesAux fuel (':' :: out) rest
      else quoteUnquotedValuesAux fuel (c :: out) rest

/-- Lazy scan for `([^",}\]]*?)"` followed by the trailer, used by the
split-quoted-string fix. -/
def fsBody : Nat → List Char → List Char →
    Option (List Char × List Char × Char × List Char)
  | 0, _, _ => none
  | Nat.succ fuel, acc, cs =>
    match cs with
    | '"' :: rest =>
      match qvTrailer rest with
      | some (ws, t, rest2) => some (acc.reverse, ws, t, rest2)
      | none => none
    | c :: rest =>
      if qvBodyCharOk c then fsBody fuel (c :: acc) rest else none
    | [] => none

/-- ai-utils.ts line 267:
`/:\s*"([^"]*)"([^",}\]]*?)"(\s*[,}\]])/g → ": \"$1$2\"$3"` (merge split
quoted strings). -/
def fixSplitQuotedStrings (cs : List Char) : List Char :=
  fixSplitQuotedStringsAux (cs.length + 1) [] cs
where
  fixSplitQuotedStringsAux : Nat → List Char → List Char → List Char
  | 0, out, cs => out.reverse ++ cs
  | Nat.succ fuel, out, cs =>
    match cs with
    | [] => out.reverse
    | c :: rest =>
      if c = ':' then
        match (rest.takeWhile jsIsWhitespace, rest.drop (rest.takeWhile jsIsWhitespace).length) with
        | (_, '"' :: r1) =>
          let g1 := r1.takeWhile (· ≠ '"')
          match r1.drop g1.length with
          | '"' :: r2 =>
            match fsBody (r2.length + 1) [] r2 with
            | some (g2, tws, t, rest2) =>
              let emitted := ':' :: ' ' :: '"' :: (g1 ++ (g2 ++ ('"' :: (tws ++ [t]))))
              fixSplitQuotedStringsAux fuel (emitted.reverse ++ out) rest2
            | none => fixSplitQuotedStringsAux fuel (':' :: out) rest
          | _ => fixSplitQuotedStringsAux fuel (':' :: out) rest
        | _ => fixSplitQuotedStringsAux fuel (':' :: out) rest
      else fixSplitQuotedStringsAux fuel (c :: out) rest

/-- ai-utils.ts lines 268-270: escape every line feed, tab and carriage
return.  The three sequential global replaces commute here (none of the
outputs contains another target character), so a single pass is exact. -/
def escapeCtl (cs : List Char) : List Char :=
  (cs.map fun c =>
    if c = '\n' then ['\\', 'n']
    else if c = '\t' then ['\\', 't']
    else if c = '\r' then ['\\', 'r']
    else [c]).flatten

/-- ai-utils.ts lines 273-286: if the last `"` is followed by no `:`,
`,` or `}` (searching from the quote itself), append a closing quote. -/
def closeIncompleteString (cs : List Char) : List Char :=
  match lastIdxOfChar cs '"' with
  | none => cs
  | some lq =>
    let t := cs.drop lq
    if t.contains ':' ∨ t.contains ',' ∨ t.contains '}' then cs
    else cs ++ ['"']

/-- ai-utils.ts lines 262-286: the full "comprehensive JSON fixes"
chain, in source order. -/
def applyJsonFixes (cleaned : String) : String :=
  let cs := cleaned.data
  let cs := cs.map fun c => if c = '\'' then '"' else c
  let cs := removeTrailingCommas cs
  let cs := quoteUnquotedKeys cs
  let cs := quoteUnquotedValues cs
  let cs := fixSplitQuotedStrings cs
  let cs := escapeCtl cs
  String.mk (closeIncompleteString cs)

/-- One attempt of `/"([^"]+)":\s*"([^"]*)"[^,}]*[,}]/` anchored at a
candidate opening quote. -/
def scrapeAttempt (cs : List Char) : Option ((String × String) × List Char) :=
  match cs with
  | '"' :: r1 =>
    let k := r1.takeWhile (· ≠ '"')
    if k = [] then none
    else
      match r1.drop k.length with
      | '"' :: ':' :: r3 =>
        let ws := r3.takeWhile jsIsWhitespace
        match r3.drop ws.length with
        | '"' :: r4 =>
          let v := r4.takeWhile (· ≠ '"')
          match r4.drop v.length with
          | '"' :: r5 =>
            let mid := r5.takeWhile fun c => ¬(c = ',' ∨ c = '}')
            match r5.drop mid.length with
            | _ :: r6 => some ((String.mk k, String.mk v), r6)
            | [] => none
          | _ => none
        | _ => none
      | _ => none
  | _ => none

def scrapePairsAux : Nat → List (String × String) → List Char →
    List (String × String)
  | 0, acc, _ => acc.reverse
  | Nat.succ fuel, acc, cs =>
    match cs with
    | [] => acc.reverse
    | c :: rest =>
      if c = '"' then
        match scrapeAttempt (c :: rest) with
        | some (kv, rest2) => scrapePairsAux fuel (kv :: acc) rest2
        | none => scrapePairsAux fuel acc rest
      else scrapePairsAux fuel acc rest

/-- ai-utils.ts lines 301-309 (and 313-324, 336-346): global match of
`/"([^"]+)":\s*"([^"]*)"[^,}]*[,}]/g` followed by per-match group
extraction, i.e. the list of scraped key/value pairs in match order. -/
def scrapePairs (s : String) : List (String × String) :=
  scrapePairsAux (s.length + 1) [] s.data

/-- `pairs.forEach(pair => partialResult[key] = value)`. -/
def pairsToObj (ps : List (String × String)) : Json :=
  Json.obj (ps.foldl (fun acc kv => jsAssign acc kv.1 (Json.str kv.2)) [])

/-- Lazy search inside `(\{[\s\S]*?\})\s*\x60\x60\x60`: the earliest `\x7d`
whose whitespace-skipped continuation is a fence closes the group. -/
def mdFindClose : Nat → List Char → List Char →
    Option (List Char × List Char)
  | 0, _, _ => none
  | Nat.succ fuel, acc, cs =>
    match cs with
    | [] => none
    | c :: rest =>
      if c = '}' then
        let t := rest.dropWhile jsIsWhitespace
        if fenceMark.isPrefixOf t then some (('}' :: acc).reverse, t.drop 3)
        else mdFindClose fuel (c :: acc) rest
      else mdFindClose fuel (c :: acc) rest

def markdownExtractAux : Nat → List Char → Option String
  | 0, _ => none
  | Nat.succ fuel, cs =>
    match cs with
    | [] => none
    | c :: rest =>
      if fenceMark.isPrefixOf (c :: rest) then
        let afterFence := (c :: rest).drop 3
        let afterJson :=
          if jsonWord.isPrefixOf afterFence then afterFence.drop 4
          else afterFence
        match afterJson.dropWhile jsIsWhitespace with
        | '{' :: body =>
          match mdFindClose (body.length + 1) [] body with
          | some (inner, _) => some (String.mk ('{' :: inner))
          | none => markdownExtractAux fuel rest
        | _ => markdownExtractAux fuel rest
      else markdownExtractAux fuel rest

/-- ai-utils.ts lines 328-330: first match of
`/\x60\x60\x60(?:json)?\s*(\{[\s\S]*?\})\s*\x60\x60\x60/` against the raw
response; returns the braced capture. -/
def markdownExtract (s : String) : Option String :=
  markdownExtractAux (s.length + 1) s.data

/-- ai-utils.ts lines 327-349 (strategy 3): parse the markdown-fenced
capture; a parsed object is kept only if it has keys (the final
`Object.keys(partialResult).length > 0` check), otherwise scrape the
capture for pairs. -/
def markdownStrategy (response : String) : Option Json :=
  match markdownExtract response with
  | none => none
  | some g =>
    match jsonParse g with
    | some j => if 0 < jsKeyCount j then some j else none
    | none =>
      let ps := scrapePairs g
      if ps = [] then none else some (pairsToObj ps)

/-- `parseAIResponse` (ai-utils.ts lines 223-362).  `none` models the
`throw new Error("Failed to parse AI response: ...")` at line 360: clean
the response, try a direct `JSON.parse`, then the repaired parse, then
the three partial-extraction strategies in order; if none of them yields
any field the function THROWS (there is no empty-object fallback). -/
def parseAIResponse (response : String) : Option Json :=
  let cleaned := cleanResponse response
  match jsonParse cleaned with
  | some j => some j
  | none =>
    let fixed := applyJsonFixes cleaned
    match jsonParse fixed with
    | some j => some j
    | none =>
      let p1 := scrapePairs fixed
      if p1 ≠ [] then some (pairsToObj p1)
      else
        let p2 := scrapePairs response
        if p2 ≠ [] then some (pairsToObj p2)
        else markdownStrategy response

/-! ## `optimizeContent` (ai-utils.ts lines 180-218)

The keyword regex
`new RegExp(keyword + "[:\\s]*([\\s\\S]*?)(?=\\n\\s*(?:" + alternation + "|$))", "gi")`
is embedded as follows.  A match starts at a case-insensitive keyword
occurrence; `[:\s]*` is greedy; the lazy group stops at the earliest
position whose lookahead (a line feed, then whitespace, then another
keyword or end of input) holds.  When no lookahead position at or after
the greedy separator run exists, the engine backtracks the separator,
which can only succeed at a lookahead position inside the run and then
captures an EMPTY group (such matches never pass the 50-character
filter but still advance the scan). -/

def jobKeywords : List String :=
  ["job description", "responsibilities", "requirements",
   "qualifications", "benefits", "about the role"]

/-- Case-insensitive literal match at the head of the input (the
keywords themselves are lowercase). -/
def ciMatchesAt (pat cs : List Char) : Bool :=
  pat.isPrefixOf ((cs.take pat.length).map Char.toLower)

/-- The lookahead `(?=\n\s*(?:kw1|...|kw6|$))`: a line feed, then (after
the whitespace run, since every keyword starts with a letter) either a
keyword or the end of the input. -/
def sectionLookahead (cs : List Char) : Bool :=
  match cs with
  | '\n' :: rest =>
    let t := rest.dropWhile jsIsWhitespace
    t = [] || jobKeywords.any fun kw => ciMatchesAt kw.data t
  | _ => false

def isColonOrWs (c : Char) : Bool :=
  c = ':' || jsIsWhitespace c

/-- Earliest position from here where the lookahead holds; returns the
characters before it (the lazy group) and the remaining input. -/
def findLookaheadFrom : Nat → List Char → List Char →
    Option (List Char × List Char)
  | 0, _, _ => none
  | Nat.succ fuel, acc, cs =>
    if sectionLookahead cs then some (acc.reverse, cs)
    else
      match cs with
      | [] => none
      | c :: rest => findLookaheadFrom fuel (c :: acc) rest

/-- Largest index `i < run.length` whose suffix position satisfies the
lookahead (separator backtracking). -/
def lastLookaheadPos (run rest : List Char) : Option Nat :=
  ((List.range run.length).filter fun i =>
    sectionLookahead (run.drop i ++ rest)).getLast?

/-- One match attempt of the section regex for `kw` anchored at the head
of `cs`: returns the captured group and the input after the match end. -/
def sectionMatchAt (kw cs : List Char) : Option (List Char × List Char) :=
  if ciMatchesAt kw cs then
    let afterKw := cs.drop kw.length
    let run := afterKw.takeWhile isColonOrWs
    let afterRun := afterKw.drop run.length
    match findLookaheadFrom (afterRun.length + 1) [] afterRun with
    | some (grp, rest) => some (grp, rest)
    | none =>
      match lastLookaheadPos run afterRun with
      | some i => some ([], run.drop i ++ afterRun)
      | none => none
  else none

/-- `content.matchAll(pattern)` for one keyword, keeping each captured
group whose trimmed length exceeds 50 (ai-utils.ts lines 202-207). -/
def sectionScan (kw : List Char) : Nat → List String → List Char →
    List String
  | 0, acc, _ => acc.reverse
  | Nat.succ fuel, acc, cs =>
    match cs with
    | [] => acc.reverse
    | c :: rest =>
      match sectionMatchAt kw (c :: rest) with
      | some (grp, rest2) =>
        let trimmed := jsTrim grp
        let acc2 :=
          if 50 < trimmed.length then String.mk trimmed :: acc else acc
        sectionScan kw fuel acc2 rest2
      | none => sectionScan kw fuel acc rest

/-- The `sections` array after the keyword loop (keyword-major order,
as the source iterates keywords in the outer loop). -/
def extractJobSections (content : String) : List String :=
  (jobKeywords.map fun kw =>
    sectionScan kw.data (content.length + 1) [] content.data).flatten

/-- `optimizeContent` (ai-utils.ts lines 180-218): return short content
unchanged; otherwise prefer the joined keyword sections when they fit,
falling back to `content.slice(0, maxLength)`. -/
def optimizeContent (content : String) (maxLength : Nat := 10000) : String :=
  if content.length ≤ maxLength then content
  else
    let sections := extractJobSections content
    if sections ≠ [] then
      let optimized := String.intercalate "\n\n" sections
      if optimized.length ≤ maxLength then optimized
      else String.mk (content.data.take maxLength)
    else String.mk (content.data.take maxLength)

/-! ## Extraction orchestrator (ai-extractor.ts lines 1071-1741)

`extractJobData` / `_extractJobData` are asynchronous methods whose only
interactions with the outside world are: the Chrome-storage extraction
cache, the legacy `window.preExtractedJobDataCache`, the session
obtained by `initializeSessions`, and the two `session.prompt` calls.
A run is embedded as a pure function of an `ExtractionEnv` describing
what each of those awaits resolves to, returning the settled value
(`Except`), the ordered side-effect trace, and the final gate state.
The caller-supplied `AbortSignal` acts only by making a prompt reject
with an `AbortError`, which is exactly what `PromptOutcome.abort`
denotes.  `Promise.allSettled` handler order depends on which prompt
settles first; this model fixes the company/position handler before the
job-description handler (no claim depends on that order). -/

/-- `ExtractedJobData` (utils/graphql-client.ts lines 405-409). -/
structure ExtractedJobData where
  company : String
  position : String
  jobDescription : String
deriving Repr, DecidableEq

inductive ExtractionError where
  | aborted : ExtractionError
  | rateLimited : ExtractionError
  | unavailable : ExtractionError
deriving Repr, DecidableEq

/-- How one `session.prompt` call settles. -/
inductive PromptOutcome where
  | success (response : String) : PromptOutcome
  | abort : PromptOutcome
  | failure (message : String) : PromptOutcome
deriving Repr, DecidableEq

/-- The Chrome-storage entry written by `cacheExtraction`
(ai-extractor.ts lines 441-446). -/
structure StoredExtraction where
  cacheKey : String
  data : ExtractedJobData
deriving Repr, DecidableEq

/-- An entry of `window.preExtractedJobDataCache`. -/
structure PreExtractedEntry where
  data : ExtractedJobData
  timestamp : Int
  url : String
deriving Repr, DecidableEq

/-- Everything a single `extractJobData` run observes from its
collaborators. -/
structure ExtractionEnv where
  /-- `chrome.storage.session[CACHE_KEYS.EXTRACTED_DATA]` (`none` also
  covers an unavailable storage API, lines 395-400). -/
  storedExtraction : Option StoredExtraction
  /-- `getJobExtractionCacheKey()` for the current location. -/
  currentCacheKey : String
  /-- `window.location.href`. -/
  currentUrl : String
  /-- `window.preExtractedJobDataCache?.[cacheKey]`. -/
  preExtracted : Option PreExtractedEntry
  /-- Is `this.promptSession` non-null after `initializeSessions`
  resolves (line 1419)? -/
  sessionAvailable : Bool
  companyPositionOutcome : PromptOutcome
  jobDescriptionOutcome : PromptOutcome

/-- `getCachedExtraction` (ai-extractor.ts lines 392-426): a stored
entry counts only if its recorded `cacheKey` equals the current one
(otherwise it is cleared and `null` returned). -/
def getCachedExtraction (env : ExtractionEnv) : Option ExtractedJobData :=
  match env.storedExtraction with
  | none => none
  | some e => if e.cacheKey = env.currentCacheKey then some e.data else none

/-- `extractField` (ai-extractor.ts lines 1234-1359) as the settlement
of its promise: a prompt success is returned raw; an `AbortError` is
re-thrown (line 1282), so the promise REJECTS (`none`); any other prompt
failure is caught and the call resolves with `"unknown"` — the regex
fallback value computed in the catch block (lines 1290-1352) is only
logged, never returned. -/
def extractFieldResult (o : PromptOutcome) : Option String :=
  match o with
  | .success r => some r
  | .abort => none
  | .failure _ => some "unknown"

/-- Is this parsed value not the JavaScript string `"unknown"`
(strict `!== "unknown"` semantics: any non-string value passes)? -/
def jsNotUnknownStr (v : Json) : Bool :=
  match v with
  | .str s => s ≠ "unknown"
  | _ => true

/-- Side effects recorded by a run, in order. -/
inductive ExtractionEvent where
  | promptIssued (field : String) (prompt : String) : ExtractionEvent
  | fieldExtracted (field : String) (value : String) : ExtractionEvent
  | cacheWritten (data : ExtractedJobData) : ExtractionEvent
  | extractionStarted : ExtractionEvent
  | extractionCompleted : ExtractionEvent
deriving Repr, DecidableEq

/-- `ExtractedPageContent` (utils/content-extractor.ts lines 409-416). -/
structure ExtractedPageContent where
  title : String
  content : String
  url : String
  hostname : String
  textContent : String
  length : Nat
deriving Repr, DecidableEq

/-- `createExtractionPrompts` (ai-extractor.ts lines 1166-1229). -/
def createExtractionPrompts (pageContent : ExtractedPageContent)
    (optimizedContent : String) : String × String :=
  let baseContext := "Page: " ++ pageContent.title ++ "\nURL: " ++
    pageContent.url ++ "\nContent: " ++ optimizedContent
  ("Extract the hiring company name and job title/position from this job posting.\n      Fully copy and preserve the exact text as it appears on the page,\n      case-sensitive, don\x27t add anything, do not change anything, do not rewrite, do not summarize, do not add anything.\n      IMPORTANT: Do not take data from metadata, only from the visible page content, inside <body>.\n\nReturn a JSON object with two fields: \"company\" and \"position\" accordingly.\nIf no company is found, use \"unknown\" for company.\nIf no position is found, use \"unknown\" for position.\n\nIMPORTANT: Return ONLY valid JSON without any markdown formatting, code blocks, or extra text. Just the raw JSON object.\n\n"
     ++ baseContext ++ "\n\nReturn ONLY valid JSON:",
   "EXTRACT the complete job description from the page content below.\n\nTASK: Find and COPY the job description text exactly as it appears on the page.\n\nWHAT TO EXTRACT:\n- Job responsibilities and duties\n- Required skills and qualifications\n- Preferred skills and experience\n- Technologies, tools, programming languages mentioned\n- Company benefits and perks\n- Work conditions\n- Project descriptions\n- Team information\n- Any other job-related information\n\nINSTRUCTIONS:\n1. READ the page content carefully\n2. IDENTIFY all text that describes the job, requirements, benefits, etc.\n3. COPY that text exactly - do NOT rewrite, summarize, or change anything\n4. PRESERVE the original formatting, line breaks, and structure\n5. INCLUDE everything related to the job - be comprehensive, not selective\n\nIMPORTANT RULES:\n- DO NOT rewrite or rephrase anything\n- DO NOT summarize or shorten the content\n- DO NOT add your own interpretation\n- COPY the exact text from the page content\n- PRESERVE original formatting and structure\n- INCLUDE ALL job-related details you find\n\nReturn a JSON object with field \"jobDescription\" containing the extracted job description text.\nIf no job description is found, return \"unknown\".\n\nIMPORTANT: Return ONLY valid JSON without any markdown formatting, code blocks, or extra text. Just the raw JSON object.\n\n"
     ++ baseContext ++ "\n\nReturn ONLY valid JSON:")

/-- One guarded progressive callback: `if (x && x !== "unknown")
onFieldExtracted(field, x)` for a possibly-absent parsed value `x`. -/
def fieldCallbackEvents (field : String) (v? : Option Json) :
    List ExtractionEvent :=
  match v? with
  | some v =>
    if jsTruthy v ∧ jsNotUnknownStr v then
      [.fieldExtracted field (jsToString v)]
    else []
  | none => []

/-- Progressive-callback events of the company/position handler
(ai-extractor.ts lines 1456-1485): on a fulfilled, non-`"unknown"`
result, parse it; each of `company`/`position` that is truthy and not
`"unknown"` fires `onFieldExtracted` (a parse throw is caught and fires
nothing). -/
def handlerEventsCompanyPosition (hasCb : Bool) (r : String) :
    List ExtractionEvent :=
  if hasCb ∧ r ≠ "unknown" then
    match parseAIResponse r with
    | none => []
    | some parsed =>
      fieldCallbackEvents "company" (jsGet parsed "company") ++
        fieldCallbackEvents "position" (jsGet parsed "position")
  else []

/-- Progressive-callback events of the job-description handler
(ai-extractor.ts lines 1486-1511). -/
def handlerEventsJobDescription (hasCb : Bool) (r : String) :
    List ExtractionEvent :=
  if hasCb ∧ r ≠ "unknown" then
    match parseAIResponse r with
    | none => []
    | some parsed =>
      fieldCallbackEvents "jobDescription" (jsGet parsed "jobDescription")
  else []

/-- A value flowing into `validateAndCleanJobData`: either the string
sentinel `"unknown"` (from `x || "unknown"`) or a truthy parsed value. -/
inductive FieldVal where
  | unknownSentinel : FieldVal
  | val (v : Json) : FieldVal

/-- `company = parsedData.company || "unknown"` etc. (ai-extractor.ts
lines 1578-1606): skip the parse entirely when the settled data is the
string `"unknown"`; a parse throw is caught leaving the sentinel; a
falsy or absent field yields the sentinel. -/
def combinedField (data : String) (key : String) : FieldVal :=
  if data = "unknown" then .unknownSentinel
  else
    match parseAIResponse data with
    | none => .unknownSentinel
    | some parsed =>
      match jsGet parsed key with
      | some v => if jsTruthy v then .val v else .unknownSentinel
      | none => .unknownSentinel

/-- The duplicate final job-description callback (ai-extractor.ts lines
1612-1630): fired again from the main flow when the combined value is
not the `"unknown"` sentinel/string. -/
def finalJdEvent (hasCb : Bool) (fv : FieldVal) : List ExtractionEvent :=
  match fv with
  | .unknownSentinel => []
  | .val v =>
    if hasCb ∧ jsNotUnknownStr v then
      [.fieldExtracted "jobDescription" (jsToString v)]
    else []

/-- `(data.x || "unknown").toString().trim()` (ai-utils.ts lines
372-376). -/
def validateField (fv : FieldVal) : String :=
  match fv with
  | .unknownSentinel => "unknown"
  | .val v => String.mk (jsTrim (jsToString v).data)

/-- The escape-fixing chain applied to the job description
(ai-utils.ts lines 379-383): `\\n`, `\\t`, `\\r`, `\\"` each unescaped
by a sequential global replace. -/
def unescapeJobDescription (s : String) : String :=
  let cs := replaceSub ['\\', 'n'] ['\n'] s.data
  let cs := replaceSub ['\\', 't'] ['\t'] cs
  let cs := replaceSub ['\\', 'r'] ['\r'] cs
  let cs := replaceSub ['\\', '"'] ['"'] cs
  String.mk cs

/-- `validateAndCleanJobData` (ai-utils.ts lines 367-386). -/
def validateAndCleanJobData (company position jobDescription : FieldVal) :
    ExtractedJobData :=
  { company := validateField company
  , position := validateField position
  , jobDescription := unescapeJobDescription (validateField jobDescription) }

/-- `_extractJobData` (ai-extractor.ts lines 1364-1741): session check,
content optimization, the two parallel `extractField` calls with their
progressive handlers, cancellation check, field assembly, validation,
and the `markExtractionCompleted` calls on every exit path.  Returns
(settled value, side-effect trace, updated gate state). -/
def extractJobDataInternal (env : ExtractionEnv)
    (pageContent : ExtractedPageContent) (hasCallback : Bool)
    (state : Option ExtractionState) :
    Except ExtractionError ExtractedJobData × List ExtractionEvent ×
      Option ExtractionState :=
  let optimizedContent := optimizeContent pageContent.content
  if ¬ env.sessionAvailable then
    -- lines 1419-1424: markExtractionCompleted() then a throw that the
    -- outer catch (line 1738) completes again and rethrows
    (.error .unavailable, [.extractionCompleted, .extractionCompleted],
      markExtractionCompleted (markExtractionCompleted state))
  else
    let prompts := createExtractionPrompts pageContent optimizedContent
    let issueEvents : List ExtractionEvent :=
      [.promptIssued "companyAndPosition" prompts.1,
       .promptIssued "jobDescription" prompts.2]
    let cpSettled := extractFieldResult env.companyPositionOutcome
    let jdSettled := extractFieldResult env.jobDescriptionOutcome
    -- both `.then` handlers run before `Promise.allSettled` returns,
    -- whichever of the two later rejects (lines 1455-1512)
    let cbEvents :=
      (match cpSettled with
       | some r => handlerEventsCompanyPosition hasCallback r
       | none => []) ++
      (match jdSettled with
       | some r => handlerEventsJobDescription hasCallback r
       | none => [])
    match cpSettled, jdSettled with
    | some cpData, some jdData =>
      let company := combinedField cpData "company"
      let position := combinedField cpData "position"
      let jobDescription := combinedField jdData "jobDescription"
      let dupEvents := finalJdEvent hasCallback jobDescription
      let parsedData :=
        validateAndCleanJobData company position jobDescription
      (.ok parsedData,
        issueEvents ++ cbEvents ++ dupEvents ++ [.extractionCompleted],
        markExtractionCompleted state)
    | _, _ =>
      -- a rejected settlement is always an AbortError (lines
      -- 1535-1562): throw a fresh AbortError, which the catch block
      -- (lines 1729-1739) completes and rethrows
      (.error .aborted, issueEvents ++ cbEvents ++ [.extractionCompleted],
        markExtractionCompleted state)

structure ExtractOptions where
  force : Bool := false
deriving Repr, DecidableEq

/-- The outcome of one `extractJobData` call. -/
structure RunResult where
  result : Except ExtractionError ExtractedJobData
  events : List ExtractionEvent
  finalState : Option ExtractionState

/-- The cached-hit replay of `onFieldExtracted` (ai-extractor.ts lines
1091-1111): each cached field that is truthy (non-empty) and not
`"unknown"` is replayed, in company/position/jobDescription order. -/
def cachedReplayEvents (hasCb : Bool) (d : ExtractedJobData) :
    List ExtractionEvent :=
  if hasCb then
    (if d.company ≠ "" ∧ d.company ≠ "unknown" then
      [.fieldExtracted "company" d.company] else []) ++
    (if d.position ≠ "" ∧ d.position ≠ "unknown" then
      [.fieldExtracted "position" d.position] else []) ++
    (if d.jobDescription ≠ "" ∧ d.jobDescription ≠ "unknown" then
      [.fieldExtracted "jobDescription" d.jobDescription] else [])
  else []

/-- `extractJobData` (ai-extractor.ts lines 1071-1161): cache
consultation (skipped under `force`), gate check with the legacy-cache
fallback, `markExtractionStarted`, the internal run, and the
write-through `cacheExtraction` on fulfilment only. -/
def extractJobData (env : ExtractionEnv)
    (pageContent : ExtractedPageContent) (opts : ExtractOptions)
    (hasCallback : Bool) (state : Option ExtractionState) (now : Int) :
    RunResult :=
  let cacheKey := pageContent.url
  match (if opts.force then none else getCachedExtraction env) with
  | some cached =>
    { result := .ok cached
    , events := cachedReplayEvents hasCallback cached
    , finalState := state }
  | none =>
    let gate := shouldPerformExtraction state env.currentUrl now opts.force
    if gate.1 then
      let started := markExtractionStarted gate.2 env.currentUrl now
      let internal :=
        extractJobDataInternal env pageContent hasCallback (some started)
      match internal.1 with
      | .ok r =>
        { result := .ok r
        , events :=
            .extractionStarted :: (internal.2.1 ++ [.cacheWritten r])
        , finalState := internal.2.2 }
      | .error e =>
        { result := .error e
        , events := .extractionStarted :: internal.2.1
        , finalState := internal.2.2 }
    else
      match env.preExtracted with
      | some entry =>
        if entry.url = cacheKey then
          { result := .ok entry.data, events := [], finalState := gate.2 }
        else
          { result := .error .rateLimited, events := [], finalState := gate.2 }
      | none =>
        { result := .error .rateLimited, events := [], finalState := gate.2 }

/-! ## Availability probe

`AvailabilityCache` (ai-utils.ts lines 96-118), `checkAvailability`
(ai-extractor.ts lines 1746-1850) and `initializeLanguageModelNew`
(ai-extractor.ts lines 705-754).  The host capability is reflected by
`hasNewApi`/`hasLegacyApi` (presence of `window.ai.languageModel` and
`window.LanguageModel`) and the status each `availability()` probe
resolves to; the side effects tracked are the probes and the
`languageModel.create(...)` calls (the call whose side effect begins the
background model download). -/

inductive AvailStatus where
  | unavailable : AvailStatus
  | downloadable : AvailStatus
  | downloading : AvailStatus
  | available : AvailStatus
deriving Repr, DecidableEq

/-- `AvailabilityCache.get` (ai-utils.ts lines 100-109): an entry is
fresh for `AI_CONFIG.CACHE_DURATION = 30000` ms. -/
def availabilityCacheGet (cache : Option (AvailStatus × Int))
    (now : Int) : Option AvailStatus :=
  match cache with
  | some (st, ts) => if now - ts < 30000 then some st else none
  | none => none

inductive AvailEvent where
  | probed : AvailEvent
  | createCalled : AvailEvent
deriving Repr, DecidableEq

structure AvailabilityResult where
  available : Bool
  status : Option AvailStatus
  apiVersion : Option String
deriving Repr, DecidableEq

/-- The new API's notion of "available" (ai-extractor.ts lines
1766-1769 and 1804-1807). -/
def newApiAvailable (st : AvailStatus) : Bool :=
  st == .available || st == .downloadable || st == .downloading

/-- `checkAvailability` (ai-extractor.ts lines 1746-1850): serve a
fresh cached status without probing; otherwise probe whichever API
exists, cache the status, and report.  It never calls
`languageModel.create` (debug logs are not modelled; a throwing probe,
line 1827, is not needed by the claims). -/
def checkAvailability (cache : Option (AvailStatus × Int)) (now : Int)
    (hasNewApi hasLegacyApi : Bool) (probeNew probeLegacy : AvailStatus) :
    AvailabilityResult × List AvailEvent × Option (AvailStatus × Int) :=
  match availabilityCacheGet cache now with
  | some cachedStatus =>
    ({ available := newApiAvailable cachedStatus
     , status := some cachedStatus
     , apiVersion :=
         if hasNewApi then some "new"
         else if hasLegacyApi then some "legacy" else none },
     [], cache)
  | none =>
    if hasNewApi then
      ({ available := newApiAvailable probeNew
       , status := some probeNew
       , apiVersion := some "new" },
       [.probed], some (probeNew, now))
    else if hasLegacyApi then
      ({ available := probeLegacy == .available ||
           probeLegacy == .downloadable
       , status := some probeLegacy
       , apiVersion := some "legacy" },
       [.probed], some (probeLegacy, now))
    else
      ({ available := false, status := none, apiVersion := none },
       [], cache)

/-- The event trace of `initializeLanguageModelNew` (ai-extractor.ts
lines 705-754): probe; on `downloadable` create with download tracking;
on `downloading` wait, re-probe, and create only if now `available`;
on `available` create a session (its `params()` call is not an
availability probe). -/
def initializeLanguageModelNew (avail availAfterWait : AvailStatus) :
    List AvailEvent :=
  match avail with
  | .unavailable => [.probed]
  | .downloadable => [.probed, .createCalled]
  | .downloading =>
    [.probed, .probed] ++
      (if availAfterWait == .available then [.createCalled] else [])
  | .available => [.probed, .createCalled]

/-! ## Session-manager interleaving

`initializeSessions` (ai-extractor.ts lines 574-610),
`_initializeSessions` (lines 615-700) and `cleanupSession` (lines
235-252) run as cooperatively-scheduled async tasks over the shared
fields `promptSession`, `isInitialized`, `initializationPromise`.  The
model is a small-step transition system: each concurrent caller of
`initializeSessions` is a task whose program counter advances by the
synchronous segments between awaits of the source.  Modelled suspension
points: the health-check prompt (line 586); the `await` inside
`cleanupSession` after `promptSession.destroy()` (line 239; when there
is no session to destroy, the following reset segment simply runs with
no intervening action); the pending creation of `_initializeSessions`
(its inner awaits — availability probe, model download, `create` — are
collapsed into one suspension, sound because no shared field is written
between them, lines 615-822); and awaiting another caller's
`initializationPromise` (line 604).  Created sessions receive fresh
ids; a created id that is never destroyed is live. -/

inductive SessPC where
  | start : SessPC
  | healthWait : SessPC
  | cleanupMid : SessPC
  | checkPromise : SessPC
  | createWait (tok : Nat) : SessPC
  | joinedWait (tok : Nat) : SessPC
  | done : SessPC
deriving Repr, DecidableEq

structure SessShared where
  promptSession : Option Nat
  isInitialized : Bool
  initializationPromise : Option Nat
  created : List Nat
  destroyed : List Nat
  nextTok : Nat
  nextSession : Nat
deriving Repr, DecidableEq

structure SessConfig where
  shared : SessShared
  tasks : List SessPC
deriving Repr, DecidableEq

/-- Scheduler actions: advance a task's next synchronous segment, or
settle one of its pending promises (health checks can fail — a probe
may reject or hit the 1-second timeout race of lines 579-584). -/
inductive SessAction where
  | run (i : Nat) : SessAction
  | healthResult (i : Nat) (healthy : Bool) : SessAction
  | createDone (i : Nat) : SessAction
  | joinResolved (i : Nat) : SessAction
deriving Repr, DecidableEq

/-- The next synchronous segment of a task. -/
def runSegment (sh : SessShared) (pc : SessPC) :
    Option (SessShared × SessPC) :=
  match pc with
  | .start =>
    -- line 576: `if (this.isInitialized && this.promptSession)` issue
    -- the health-check prompt and suspend; otherwise fall to the dedup
    -- check
    if sh.isInitialized ∧ sh.promptSession.isSome then
      some (sh, .healthWait)
    else some (sh, .checkPromise)
  | .cleanupMid =>
    -- lines 244-246: `promptSession = null; isInitialized = false;
    -- initializationPromise = null`, then (after `cleanupSession`
    -- returns) the caller proceeds to the dedup check of line 600
    let sh2 : SessShared :=
      { sh with
        promptSession := none
        isInitialized := false
        initializationPromise := none }
    some (sh2, .checkPromise)
  | .checkPromise =>
    match sh.initializationPromise with
    | some tok => some (sh, .joinedWait tok)
    | none =>
      -- line 608: `this.initializationPromise = this._initializeSessions()`;
      -- the body runs synchronously to its first await
      let sh2 : SessShared :=
        { sh with
          initializationPromise := some sh.nextTok
          nextTok := sh.nextTok + 1 }
      some (sh2, .createWait sh.nextTok)
  | _ => none

/-- Settlement of the health-check race (lines 586-596): on success the
caller returns; on failure it enters `cleanupSession`, destroying the
current handle if there is one, and suspends. -/
def healthSettle (sh : SessShared) (pc : SessPC) (healthy : Bool) :
    Option (SessShared × SessPC) :=
  match pc with
  | .healthWait =>
    if healthy then some (sh, .done)
    else
      match sh.promptSession with
      | some sid =>
        some ({ sh with destroyed := sh.destroyed ++ [sid] }, .cleanupMid)
      | none => some (sh, .cleanupMid)
  | _ => none

/-- Resumption of `_initializeSessions` once `create()` resolves
(lines 785/815 then 688-699): store the fresh handle, mark initialized,
and the `finally` clears the pending-creation field unconditionally. -/
def createSettle (sh : SessShared) (pc : SessPC) :
    Option (SessShared × SessPC) :=
  match pc with
  | .createWait _ =>
    let sh2 : SessShared :=
      { sh with
        promptSession := some sh.nextSession
        created := sh.created ++ [sh.nextSession]
        nextSession := sh.nextSession + 1
        isInitialized := true
        initializationPromise := none }
    some (sh2, .done)
  | _ => none

def joinSettle (sh : SessShared) (pc : SessPC) :
    Option (SessShared × SessPC) :=
  match pc with
  | .joinedWait _ => some (sh, .done)
  | _ => none

def applySessAction (cfg : SessConfig) (a : SessAction) : SessConfig :=
  match a with
  | .run i =>
    match cfg.tasks.get? i with
    | some pc =>
      match runSegment cfg.shared pc with
      | some (sh, pc2) => { shared := sh, tasks := cfg.tasks.set i pc2 }
      | none => cfg
    | none => cfg
  | .healthResult i healthy =>
    match cfg.tasks.get? i with
    | some pc =>
      match healthSettle cfg.shared pc healthy with
      | some (sh, pc2) => { shared := sh, tasks := cfg.tasks.set i pc2 }
      | none => cfg
    | none => cfg
  | .createDone i =>
    match cfg.tasks.get? i with
    | some pc =>
      match createSettle cfg.shared pc with
      | some (sh, pc2) => { shared := sh, tasks := cfg.tasks.set i pc2 }
      | none => cfg
    | none => cfg
  | .joinResolved i =>
    match cfg.tasks.get? i with
    | some pc =>
      match joinSettle cfg.shared pc with
      | some (sh, pc2) => { shared := sh, tasks := cfg.tasks.set i pc2 }
      | none => cfg
    | none => cfg

def runSessActions (cfg : SessConfig) (as : List SessAction) : SessConfig :=
  as.foldl applySessAction cfg

/-- Sessions that were created and never destroyed. -/
def liveSessions (sh : SessShared) : List Nat :=
  sh.created.filter fun sid => ¬ sh.destroyed.contains sid

/-- `n` concurrent callers of `initializeSessions` over the fresh
extractor state. -/
def initialSessConfig (n : Nat) : SessConfig :=
  { shared := { promptSession := none, isInitialized := false,
                initializationPromise := none, created := [],
                destroyed := [], nextTok := 0, nextSession := 0 }
  , tasks := List.replicate n .start }

/-- The interleaving that breaks the single-session guarantee: caller 0
initializes session 0; callers 1 and 2 both observe it, both start
health checks, both health checks fail; caller 1 cleans up (destroying
session 0) and starts creation 1; caller 2 finishes its own cleanup,
whose field reset CLEARS caller 1's pending-creation handle, so its
dedup check misses and it starts creation 2; both creations resolve and
session 1 is overwritten by session 2 without ever being destroyed. -/
def sessLeakScript : List SessAction :=
  [.run 0, .run 0, .createDone 0,
   .run 1, .run 2,
   .healthResult 1 false, .run 1, .run 1,
   .healthResult 2 false, .run 2, .run 2,
   .createDone 1, .createDone 2]

/-- Trace classifier: is this event a progressive field callback? -/
def isFieldExtractedEvent : ExtractionEvent → Bool
  | .fieldExtracted _ _ => true
  | _ => false

/-! ## Theorems -/

/-! ### Trace-shape lemmas (shared helpers) -/

theorem fieldCallbackEvents_fieldOnly (f : String) (v? : Option Json) :
    ∀ e ∈ fieldCallbackEvents f v?, isFieldExtractedEvent e = true := by
  intro e he
  cases v? with
  | none => simp [fieldCallbackEvents] at he
  | some v =>
    unfold fieldCallbackEvents at he
    split at he
    · simp at he
      rcases he with ⟨-, rfl⟩
      rfl
    · simp at he

theorem handlerEventsCP_fieldOnly (hasCb : Bool) (r : String) :
    ∀ e ∈ handlerEventsCompanyPosition hasCb r,
      isFieldExtractedEvent e = true := by
  intro e he
  unfold handlerEventsCompanyPosition at he
  split at he
  · split at he
    · simp at he
    · rcases List.mem_append.mp he with h | h
      · exact fieldCallbackEvents_fieldOnly _ _ e h
      · exact fieldCallbackEvents_fieldOnly _ _ e h
  · simp at he

theorem handlerEventsJD_fieldOnly (hasCb : Bool) (r : String) :
    ∀ e ∈ handlerEventsJobDescription hasCb r,
      isFieldExtractedEvent e = true := by
  intro e he
  unfold handlerEventsJobDescription at he
  split at he
  · split at he
    · simp at he
    · exact fieldCallbackEvents_fieldOnly _ _ e he
  · simp at he

theorem finalJdEvent_fieldOnly (hasCb : Bool) (fv : FieldVal) :
    ∀ e ∈ finalJdEvent hasCb fv, isFieldExtractedEvent e = true := by
  intro e he
  cases fv with
  | unknownSentinel => simp [finalJdEvent] at he
  | val v =>
    unfold finalJdEvent at he
    split at he
    · simp at he
    · simp at he
      rcases he with ⟨-, rfl⟩
      rfl

theorem cachedReplayEvents_fieldOnly (hasCb : Bool) (d : ExtractedJobData) :
    ∀ e ∈ cachedReplayEvents hasCb d, isFieldExtractedEvent e = true := by
  intro e he
  cases e <;> try rfl
  all_goals simp [cachedReplayEvents] at he

theorem not_cacheWritten_of_fieldOnly (l : List ExtractionEvent)
    (hl : ∀ e ∈ l, isFieldExtractedEvent e = true) (d : ExtractedJobData) :
    ExtractionEvent.cacheWritten d ∉ l := by
  intro hmem
  have h := hl _ hmem
  simp [isFieldExtractedEvent] at h

theorem not_promptIssued_of_fieldOnly (l : List ExtractionEvent)
    (hl : ∀ e ∈ l, isFieldExtractedEvent e = true) (f p : String) :
    ExtractionEvent.promptIssued f p ∉ l := by
  intro hmem
  have h := hl _ hmem
  simp [isFieldExtractedEvent] at h

/-! ### Claim theorems -/

/-- C3: when the extraction cache holds a result for the current cache
key and `force` is not set, `extractJobData` returns the cached result
immediately, issues no prompt calls, and (when a callback is supplied)
replays exactly the cached fields that are non-empty and not
`"unknown"`, in company/position/jobDescription order. -/
theorem cached_extraction_replay (env : ExtractionEnv)
    (pageContent : ExtractedPageContent) (opts : ExtractOptions)
    (hasCb : Bool) (state : Option ExtractionState) (now : Int)
    (d : ExtractedJobData)
    (hforce : opts.force = false)
    (hcache : getCachedExtraction env = some d) :
    (extractJobData env pageContent opts hasCb state now).result =
      Except.ok d
    ∧ (∀ f p, ExtractionEvent.promptIssued f p ∉
        (extractJobData env pageContent opts hasCb state now).events)
    ∧ (hasCb = true →
        (extractJobData env pageContent opts hasCb state now).events =
          (if d.company ≠ "" ∧ d.company ≠ "unknown" then
            [ExtractionEvent.fieldExtracted "company" d.company] else []) ++
          ((if d.position ≠ "" ∧ d.position ≠ "unknown" then
            [ExtractionEvent.fieldExtracted "position" d.position] else []) ++
          (if d.jobDescription ≠ "" ∧ d.jobDescription ≠ "unknown" then
            [ExtractionEvent.fieldExtracted "jobDescription" d.jobDescription]
          else []))) := by
  have hrun : extractJobData env pageContent opts hasCb state now =
      { result := Except.ok d
      , events := cachedReplayEvents hasCb d
      , finalState := state } := by
    unfold extractJobData
    rw [hforce]
    simp [hcache]
  refine ⟨by rw [hrun], ?_, ?_⟩
  · intro f p
    rw [hrun]
    exact not_promptIssued_of_fieldOnly _ (cachedReplayEvents_fieldOnly hasCb d) f p
  · intro hcb
    rw [hrun]
    simp [cachedReplayEvents, hcb]

theorem cached_extraction_replay_witness :
    (ExtractOptions.force { force := false } = false
      ∧ getCachedExtraction
          { storedExtraction := some
              { cacheKey := "https://jobs.example/p?id=1"
              , data := { company := "Acme", position := "Engineer"
                        , jobDescription := "Build things" } }
          , currentCacheKey := "https://jobs.example/p?id=1"
          , currentUrl := "https://jobs.example/p?id=1"
          , preExtracted := none
          , sessionAvailable := true
          , companyPositionOutcome := PromptOutcome.success ""
          , jobDescriptionOutcome := PromptOutcome.success "" } =
          some { company := "Acme", position := "Engineer"
               , jobDescription := "Build things" })
    ∧ (extractJobData
        { storedExtraction := some
            { cacheKey := "https://jobs.example/p?id=1"
            , data := { company := "Acme", position := "Engineer"
                      , jobDescription := "Build things" } }
        , currentCacheKey := "https://jobs.example/p?id=1"
        , currentUrl := "https://jobs.example/p?id=1"
        , preExtracted := none
        , sessionAvailable := true
        , companyPositionOutcome := PromptOutcome.success ""
        , jobDescriptionOutcome := PromptOutcome.success "" }
        { title := "T", content := "C", url := "https://jobs.example/p?id=1"
        , hostname := "jobs.example", textContent := "C", length := 1 }
        { force := false } true none 0).result =
      Except.ok { company := "Acme", position := "Engineer"
                , jobDescription := "Build things" } :=
  ⟨⟨rfl, rfl⟩,
   (cached_extraction_replay
     { storedExtraction := some
         { cacheKey := "https://jobs.example/p?id=1"
         , data := { company := "Acme", position := "Engineer"
                   , jobDescription := "Build things" } }
     , currentCacheKey := "https://jobs.example/p?id=1"
     , currentUrl := "https://jobs.example/p?id=1"
     , preExtracted := none
     , sessionAvailable := true
     , companyPositionOutcome := PromptOutcome.success ""
     , jobDescriptionOutcome := PromptOutcome.success "" }
     { title := "T", content := "C", url := "https://jobs.example/p?id=1"
     , hostname := "jobs.example", textContent := "C", length := 1 }
     { force := false } true none 0
     { company := "Acme", position := "Engineer"
     , jobDescription := "Build things" }
     rfl rfl).1⟩

/-- C2 counterexample: `parseAIResponse` does NOT always return an
object — on the input `"hello"` (no brace, so every parse attempt and
every scraping strategy comes up empty) it reaches the
`throw secondError` of ai-utils.ts line 356 and the function throws the
wrapped error of line 360, modelled here as `none`. -/
theorem parseAIResponse_throws_counterexample :
    parseAIResponse "hello" = none := by
  rfl

/-- C2 amended: `parseAIResponse` returns an object whenever the direct
parse, the repaired parse, or one of the scraping strategies yields
anything, and it THROWS (rather than returning an empty object) exactly
when all of them come up empty. -/
theorem parseAIResponse_error_characterization (s : String) :
    parseAIResponse s = none ↔
      (jsonParse (cleanResponse s) = none
       ∧ jsonParse (applyJsonFixes (cleanResponse s)) = none
       ∧ scrapePairs (applyJsonFixes (cleanResponse s)) = []
       ∧ scrapePairs s = []
       ∧ markdownStrategy s = none) := by
  unfold parseAIResponse
  cases h1 : jsonParse (cleanResponse s) with
  | some j => simp [h1]
  | none =>
    simp only [h1]
    cases h2 : jsonParse (applyJsonFixes (cleanResponse s)) with
    | some j => simp [h2]
    | none =>
      simp only [h2]
      by_cases h3 : scrapePairs (applyJsonFixes (cleanResponse s)) = [] <;>
        by_cases h4 : scrapePairs s = [] <;>
        simp [h3, h4]

/-- C7: on a response consisting of a ` ```json ` code fence wrapping an
object with a trailing comma, `parseAIResponse` strips the fence, fails
the direct parse, removes the trailing comma in the repair pass, and
returns the parsed object `\x7bcompany: "Acme", position: "Eng"\x7d`. -/
theorem parseAIResponse_fenced_trailing_comma :
    parseAIResponse "```json\n\x7b\"company\": \"Acme\", \"position\": \"Eng\",\x7d\n```"
      = some (Json.obj [("company", Json.str "Acme"),
                        ("position", Json.str "Eng")]) := by
  rfl

/-- C5: with `isExtracting = false` and the last extraction recorded for
URL `u` at time `t`, a non-forced `shouldPerformExtraction` call for the
same URL `u` at any time strictly less than 10 seconds after `t` is
denied, while a forced call is allowed regardless of elapsed time and
state. -/
theorem gate_cooldown_denies_and_force_allows (u : String) (t now : Int)
    (c : Nat) (hcool : now - t < 10000) :
    (shouldPerformExtraction
        (some { isExtracting := false, lastExtractionUrl := u
              , lastExtractionTime := t, extractionCount := c })
        u now false).1 = false
    ∧ ∀ (st : Option ExtractionState) (u2 : String) (n2 : Int),
        (shouldPerformExtraction st u2 n2 true).1 = true := by
  refine ⟨?_, ?_⟩
  · simp [shouldPerformExtraction, hcool]
  · intro st u2 n2
    cases st <;> simp [shouldPerformExtraction]

theorem gate_cooldown_denies_and_force_allows_witness :
    ((3000 : Int) - 0 < 10000)
    ∧ (shouldPerformExtraction
        (some { isExtracting := false
              , lastExtractionUrl := "https://jobs.example/a"
              , lastExtractionTime := 0, extractionCount := 1 })
        "https://jobs.example/a" 3000 false).1 = false :=
  ⟨by decide,
   (gate_cooldown_denies_and_force_allows "https://jobs.example/a" 0 3000 1
     (by decide)).1⟩

/-- C6 counterexample: five non-forced extractions on five distinct URLs
at times 0s,1s,2s,3s,4s (each allowed by the gate and recorded via
`markExtractionStarted`, so `extractionCount = 5`), followed by a sixth
non-forced call at 5s — well inside the 60-second window — targeting a
URL different from the last one.  The gate ALLOWS the sixth call
(`shouldPerformExtraction` returns `true` on the different-URL branch
before it ever reaches the rate-limit check), refuting the claim that
the sixth call is denied "whatever URL it targets". -/
theorem gate_rate_limit_counterexample :
    let g1 := shouldPerformExtraction none "https://jobs.example/1" 0 false
    let s1 := markExtractionCompleted
      (some (markExtractionStarted g1.2 "https://jobs.example/1" 0))
    let g2 := shouldPerformExtraction s1 "https://jobs.example/2" 1000 false
    let s2 := markExtractionCompleted
      (some (markExtractionStarted g2.2 "https://jobs.example/2" 1000))
    let g3 := shouldPerformExtraction s2 "https://jobs.example/3" 2000 false
    let s3 := markExtractionCompleted
      (some (markExtractionStarted g3.2 "https://jobs.example/3" 2000))
    let g4 := shouldPerformExtraction s3 "https://jobs.example/4" 3000 false
    let s4 := markExtractionCompleted
      (some (markExtractionStarted g4.2 "https://jobs.example/4" 3000))
    let g5 := shouldPerformExtraction s4 "https://jobs.example/5" 4000 false
    let s5 := markExtractionCompleted
      (some (markExtractionStarted g5.2 "https://jobs.example/5" 4000))
    g1.1 = true ∧ g2.1 = true ∧ g3.1 = true ∧ g4.1 = true ∧ g5.1 = true
    ∧ (s5.map ExtractionState.extractionCount) = some 5
    ∧ (shouldPerformExtraction s5 "https://jobs.example/6" 5000 false).1
        = true := by
  decide

/-- C6 amended: after any 5 non-forced extractions recorded via
`markExtractionStarted` (so `extractionCount ≥ 5`), a 6th non-forced call
within the 60-second window is denied when it targets the SAME URL as the
most recent extraction; a call targeting a different URL is allowed
immediately, and a forced call is always allowed. -/
theorem gate_rate_limit_amended (s : ExtractionState) (now : Int)
    (u : String) (hidle : s.isExtracting = false)
    (hcount : 5 ≤ s.extractionCount)
    (hwin : now - s.lastExtractionTime < 60000) :
    (shouldPerformExtraction (some s) s.lastExtractionUrl now false).1
      = false
    ∧ (shouldPerformExtraction (some s) s.lastExtractionUrl now true).1
      = true
    ∧ (u ≠ s.lastExtractionUrl →
        (shouldPerformExtraction (some s) u now false).1 = true) := by
  refine ⟨?_, ?_, ?_⟩
  · by_cases hc : now - s.lastExtractionTime < 10000 <;>
      simp [shouldPerformExtraction, hidle, hc, hcount, hwin]
  · simp [shouldPerformExtraction]
  · intro hne
    have hne2 : ¬ s.lastExtractionUrl = u := fun h => hne h.symm
    by_cases hc : now - s.lastExtractionTime < 10000 <;>
      simp [shouldPerformExtraction, hidle, hc, hne2]

/-- Helper: whenever at least one prompt settles with an `AbortError`,
the internal run rejects with the fresh `AbortError` of line 1559, its
trace is the two prompt issues, some progressive field callbacks, and
the final `markExtractionCompleted`, and the gate state is completed. -/
theorem internal_aborted (env : ExtractionEnv)
    (pageContent : ExtractedPageContent) (hasCb : Bool)
    (st : Option ExtractionState)
    (hsess : env.sessionAvailable = true)
    (habort : env.companyPositionOutcome = PromptOutcome.abort ∨
      env.jobDescriptionOutcome = PromptOutcome.abort) :
    ∃ cb : List ExtractionEvent,
      (∀ e ∈ cb, isFieldExtractedEvent e = true) ∧
      extractJobDataInternal env pageContent hasCb st =
        (Except.error ExtractionError.aborted,
         ExtractionEvent.promptIssued "companyAndPosition"
             (createExtractionPrompts pageContent
               (optimizeContent pageContent.content)).1 ::
           ExtractionEvent.promptIssued "jobDescription"
             (createExtractionPrompts pageContent
               (optimizeContent pageContent.content)).2 ::
           (cb ++ [ExtractionEvent.extractionCompleted]),
         markExtractionCompleted st) := by
  rcases habort with h | h
  · refine ⟨(match extractFieldResult env.jobDescriptionOutcome with
             | some r => handlerEventsJobDescription hasCb r
             | none => []), ?_, ?_⟩
    · intro e he
      cases hj : extractFieldResult env.jobDescriptionOutcome with
      | none => rw [hj] at he; simp at he
      | some r => rw [hj] at he; exact handlerEventsJD_fieldOnly hasCb r e he
    · unfold extractJobDataInternal
      rw [hsess, h]
      cases hj : env.jobDescriptionOutcome <;>
        simp [extractFieldResult]
  · refine ⟨(match extractFieldResult env.companyPositionOutcome with
             | some r => handlerEventsCompanyPosition hasCb r
             | none => []), ?_, ?_⟩
    · intro e he
      cases hc : extractFieldResult env.companyPositionOutcome with
      | none => rw [hc] at he; simp at he
      | some r => rw [hc] at he; exact handlerEventsCP_fieldOnly hasCb r e he
    · unfold extractJobDataInternal
      rw [hsess, h]
      cases hc : env.companyPositionOutcome <;>
        simp [extractFieldResult]

/-- C1: when at least one of the two parallel prompt calls rejects with
an abort (cancellation) error, `extractJobData` rejects with the
cancellation error, writes nothing to the extraction cache, and the
gate's `isExtracting` flag is still cleared (`markExtractionCompleted`
runs on the cancellation path, recorded in the trace). -/
theorem extraction_cancelled_no_cache_write (env : ExtractionEnv)
    (pageContent : ExtractedPageContent) (opts : ExtractOptions)
    (hasCb : Bool) (state : Option ExtractionState) (now : Int)
    (hnc : opts.force = true ∨ getCachedExtraction env = none)
    (hgate : (shouldPerformExtraction state env.currentUrl now
      opts.force).1 = true)
    (hsess : env.sessionAvailable = true)
    (habort : env.companyPositionOutcome = PromptOutcome.abort ∨
      env.jobDescriptionOutcome = PromptOutcome.abort) :
    (extractJobData env pageContent opts hasCb state now).result =
      Except.error ExtractionError.aborted
    ∧ (∀ d, ExtractionEvent.cacheWritten d ∉
        (extractJobData env pageContent opts hasCb state now).events)
    ∧ ExtractionEvent.extractionCompleted ∈
        (extractJobData env pageContent opts hasCb state now).events
    ∧ (∃ s, (extractJobData env pageContent opts hasCb state now).finalState
        = some s ∧ s.isExtracting = false) := by
  have hcacheNone :
      (if opts.force then none else getCachedExtraction env) = none := by
    rcases hnc with h | h
    · simp [h]
    · cases hf : opts.force <;> simp [hf, h]
  obtain ⟨cb, hcb, hinternal⟩ :=
    internal_aborted env pageContent hasCb
      (some (markExtractionStarted
        (shouldPerformExtraction state env.currentUrl now opts.force).2
        env.currentUrl now))
      hsess habort
  have hrun : extractJobData env pageContent opts hasCb state now =
      { result := Except.error ExtractionError.aborted
      , events := ExtractionEvent.extractionStarted ::
          (ExtractionEvent.promptIssued "companyAndPosition"
              (createExtractionPrompts pageContent
                (optimizeContent pageContent.content)).1 ::
            ExtractionEvent.promptIssued "jobDescription"
              (createExtractionPrompts pageContent
                (optimizeContent pageContent.content)).2 ::
            (cb ++ [ExtractionEvent.extractionCompleted]))
      , finalState := some
          { markExtractionStarted
              (shouldPerformExtraction state env.currentUrl now opts.force).2
              env.currentUrl now with isExtracting := false } } := by
    unfold extractJobData
    rw [hcacheNone]
    dsimp only
    rw [hgate]
    simp only [if_true]
    rw [hinternal]
    rfl
  refine ⟨by rw [hrun], ?_, ?_, ?_⟩
  · intro d hm
    rw [hrun] at hm
    simp only [List.mem_cons, List.mem_append, List.mem_singleton] at hm
    rcases hm with h | h | h | h | h
    · simp at h
    · simp at h
    · simp at h
    · exact not_cacheWritten_of_fieldOnly cb hcb d h
    · simp at h
  · rw [hrun]
    simp
  · rw [hrun]
    exact ⟨_, rfl, rfl⟩

theorem extraction_cancelled_no_cache_write_witness :
    (getCachedExtraction
        { storedExtraction := none
        , currentCacheKey := "https://jobs.example/c"
        , currentUrl := "https://jobs.example/c"
        , preExtracted := none
        , sessionAvailable := true
        , companyPositionOutcome := PromptOutcome.abort
        , jobDescriptionOutcome := PromptOutcome.success "ignored" } = none
      ∧ (shouldPerformExtraction none "https://jobs.example/c" 0 false).1
          = true
      ∧ (true : Bool) = true)
    ∧ (extractJobData
        { storedExtraction := none
        , currentCacheKey := "https://jobs.example/c"
        , currentUrl := "https://jobs.example/c"
        , preExtracted := none
        , sessionAvailable := true
        , companyPositionOutcome := PromptOutcome.abort
        , jobDescriptionOutcome := PromptOutcome.success "ignored" }
        { title := "T", content := "C", url := "https://jobs.example/c"
        , hostname := "jobs.example", textContent := "C", length := 1 }
        { force := false } false none 0).result =
      Except.error ExtractionError.aborted :=
  ⟨⟨rfl, rfl, rfl⟩,
   (extraction_cancelled_no_cache_write
     { storedExtraction := none
     , currentCacheKey := "https://jobs.example/c"
     , currentUrl := "https://jobs.example/c"
     , preExtracted := none
     , sessionAvailable := true
     , companyPositionOutcome := PromptOutcome.abort
     , jobDescriptionOutcome := PromptOutcome.success "ignored" }
     { title := "T", content := "C", url := "https://jobs.example/c"
     , hostname := "jobs.example", textContent := "C", length := 1 }
     { force := false } false none 0
     (Or.inr rfl) rfl rfl (Or.inl rfl)).1⟩

/-- C4: when exactly one of the two parallel prompts fails for a
non-cancellation reason while the other succeeds, the call resolves
(no throw), the failed prompt's field(s) are `"unknown"`, and the
successful prompt's field(s) come from its parsed response — extraction
is field-independent, never all-or-nothing. -/
theorem partial_prompt_failure_independent (env : ExtractionEnv)
    (pageContent : ExtractedPageContent) (opts : ExtractOptions)
    (hasCb : Bool) (state : Option ExtractionState) (now : Int)
    (msg r : String)
    (hnc : opts.force = true ∨ getCachedExtraction env = none)
    (hgate : (shouldPerformExtraction state env.currentUrl now
      opts.force).1 = true)
    (hsess : env.sessionAvailable = true) :
    (env.companyPositionOutcome = PromptOutcome.failure msg →
      env.jobDescriptionOutcome = PromptOutcome.success r →
      (extractJobData env pageContent opts hasCb state now).result =
        Except.ok
          { company := "unknown", position := "unknown"
          , jobDescription := unescapeJobDescription
              (validateField (combinedField r "jobDescription")) })
    ∧ (env.companyPositionOutcome = PromptOutcome.success r →
        env.jobDescriptionOutcome = PromptOutcome.failure msg →
        (extractJobData env pageContent opts hasCb state now).result =
          Except.ok
            { company := validateField (combinedField r "company")
            , position := validateField (combinedField r "position")
            , jobDescription := "unknown" }) := by
  have hunk : unescapeJobDescription (validateField FieldVal.unknownSentinel)
      = "unknown" := rfl
  have hcacheNone :
      (if opts.force then none else getCachedExtraction env) = none := by
    rcases hnc with h | h
    · simp [h]
    · cases hf : opts.force <;> simp [hf, h]
  constructor
  · intro hcp hjd
    unfold extractJobData
    rw [hcacheNone]
    dsimp only
    rw [hgate]
    simp only [if_true]
    unfold extractJobDataInternal
    rw [hsess]
    simp only [not_true, if_neg, ite_false, Bool.not_true]
    rw [hcp, hjd]
    simp [extractFieldResult, combinedField, validateAndCleanJobData,
      validateField]
  · intro hcp hjd
    unfold extractJobData
    rw [hcacheNone]
    dsimp only
    rw [hgate]
    simp only [if_true]
    unfold extractJobDataInternal
    rw [hsess]
    simp only [not_true, if_neg, ite_false, Bool.not_true]
    rw [hcp, hjd]
    simp [extractFieldResult, combinedField, validateAndCleanJobData, hunk]

theorem partial_prompt_failure_independent_witness :
    (getCachedExtraction
        { storedExtraction := none
        , currentCacheKey := "https://jobs.example/p"
        , currentUrl := "https://jobs.example/p"
        , preExtracted := none
        , sessionAvailable := true
        , companyPositionOutcome := PromptOutcome.failure "model error"
        , jobDescriptionOutcome :=
            PromptOutcome.success "\x7b\"jobDescription\": \"Great role\"\x7d" }
        = none
      ∧ (shouldPerformExtraction none "https://jobs.example/p" 0 false).1
          = true
      ∧ (true : Bool) = true)
    ∧ (extractJobData
        { storedExtraction := none
        , currentCacheKey := "https://jobs.example/p"
        , currentUrl := "https://jobs.example/p"
        , preExtracted := none
        , sessionAvailable := true
        , companyPositionOutcome := PromptOutcome.failure "model error"
        , jobDescriptionOutcome :=
            PromptOutcome.success "\x7b\"jobDescription\": \"Great role\"\x7d" }
        { title := "T", content := "C", url := "https://jobs.example/p"
        , hostname := "jobs.example", textContent := "C", length := 1 }
        { force := false } false none 0).result =
      Except.ok
        { company := "unknown", position := "unknown"
        , jobDescription := unescapeJobDescription (validateField
            (combinedField "\x7b\"jobDescription\": \"Great role\"\x7d"
              "jobDescription")) } :=
  ⟨⟨rfl, rfl, rfl⟩,
   ((partial_prompt_failure_independent
     { storedExtraction := none
     , currentCacheKey := "https://jobs.example/p"
     , currentUrl := "https://jobs.example/p"
     , preExtracted := none
     , sessionAvailable := true
     , companyPositionOutcome := PromptOutcome.failure "model error"
     , jobDescriptionOutcome :=
         PromptOutcome.success "\x7b\"jobDescription\": \"Great role\"\x7d" }
     { title := "T", content := "C", url := "https://jobs.example/p"
     , hostname := "jobs.example", textContent := "C", length := 1 }
     { force := false } false none 0 "model error"
     "\x7b\"jobDescription\": \"Great role\"\x7d"
     (Or.inr rfl) rfl rfl).1) rfl rfl⟩

/-- C8 counterexample: with no fresh availability-cache entry and the
host reporting `downloadable`, `checkAvailability` reports
`available = true` but fires NO creation call — it only probes and
caches; the claim that it "proactively triggers acquisition" is false
for `checkAvailability`. -/
theorem checkAvailability_no_download_trigger_counterexample :
    (checkAvailability none 0 true false AvailStatus.downloadable
        AvailStatus.unavailable).1.available = true
    ∧ AvailEvent.createCalled ∉
        (checkAvailability none 0 true false AvailStatus.downloadable
          AvailStatus.unavailable).2.1 := by
  decide

/-- C8 amended: on a cache miss with the new API reporting
`downloadable`, `checkAvailability` reports `available = true`
(optimistically) and caches the status, but issues no creation call
itself; the creation call that begins the background download is issued
by session initialization — `initializeLanguageModelNew` fires
`create(...)` when it observes `downloadable`. -/
theorem checkAvailability_downloadable_amended
    (cache : Option (AvailStatus × Int)) (now : Int) (hasLegacy : Bool)
    (probeLegacy afterWait : AvailStatus)
    (hmiss : availabilityCacheGet cache now = none) :
    (checkAvailability cache now true hasLegacy AvailStatus.downloadable
        probeLegacy).1.available = true
    ∧ AvailEvent.createCalled ∉
        (checkAvailability cache now true hasLegacy
          AvailStatus.downloadable probeLegacy).2.1
    ∧ (checkAvailability cache now true hasLegacy
        AvailStatus.downloadable probeLegacy).2.2 =
        some (AvailStatus.downloadable, now)
    ∧ AvailEvent.createCalled ∈
        initializeLanguageModelNew AvailStatus.downloadable afterWait := by
  refine ⟨?_, ?_, ?_, ?_⟩ <;>
    simp [checkAvailability, hmiss, newApiAvailable,
      initializeLanguageModelNew]

theorem checkAvailability_downloadable_amended_witness :
    availabilityCacheGet none 0 = none
    ∧ (checkAvailability none 0 true false AvailStatus.downloadable
        AvailStatus.unavailable).1.available = true :=
  ⟨rfl,
   (checkAvailability_downloadable_amended none 0 false
     AvailStatus.unavailable AvailStatus.available rfl).1⟩

/-- C9 (code versus claim): the `sessLeakScript` interleaving of three
concurrent `initializeSessions` callers reaches a state where two
creations are in flight simultaneously (after action 11 both caller 1
and caller 2 hold distinct pending creations — they were NOT served one
shared pending-creation handle), and ends with TWO live sessions:
session 1 is overwritten by session 2 without being destroyed.  The
deduplication breaks because `cleanupSession` (line 246) clears
`initializationPromise` even when the in-flight creation belongs to
another caller. -/
theorem session_manager_two_live_sessions :
    ((runSessActions (initialSessConfig 3) (sessLeakScript.take 11)).tasks.get? 1
        = some (SessPC.createWait 1)
      ∧ (runSessActions (initialSessConfig 3) (sessLeakScript.take 11)).tasks.get? 2
        = some (SessPC.createWait 2))
    ∧ liveSessions (runSessActions (initialSessConfig 3) sessLeakScript).shared
        = [1, 2] := by
  decide

/-- C10: for every content string and positive `maxLength` (default
10000), `optimizeContent` returns the input unchanged when its length is
at most `maxLength`, and otherwise returns a string of length at most
`maxLength` — the text handed to the inference prompts is always bounded
by the configured maximum. -/
theorem optimizeContent_bounded (content : String) (maxLength : Nat)
    (hpos : 0 < maxLength) :
    (content.length ≤ maxLength →
      optimizeContent content maxLength = content)
    ∧ (maxLength < content.length →
      (optimizeContent content maxLength).length ≤ maxLength) := by
  constructor
  · intro h
    unfold optimizeContent
    rw [if_pos h]
  · intro h
    have h2 : ¬ content.length ≤ maxLength := by omega
    have htake : (String.mk (content.data.take maxLength)).length ≤ maxLength := by
      show (content.data.take maxLength).length ≤ maxLength
      simp [List.length_take]
    unfold optimizeContent
    rw [if_neg h2]
    dsimp only
    split_ifs with hs hlen
    · exact hlen
    · exact htake
    · exact htake

theorem optimizeContent_bounded_witness :
    0 < 10000 ∧ optimizeContent "short page text" 10000 = "short page text" :=
  ⟨by decide,
   (optimizeContent_bounded "short page text" 10000 (by decide)).1 (by decide)⟩

theorem gate_rate_limit_amended_witness :
    ((false : Bool) = false ∧ 5 ≤ 5 ∧ (30000 : Int) - 0 < 60000)
    ∧ (shouldPerformExtraction
        (some { isExtracting := false
              , lastExtractionUrl := "https://jobs.example/a"
              , lastExtractionTime := 0, extractionCount := 5 })
        "https://jobs.example/a" 30000 false).1 = false :=
  ⟨⟨rfl, by decide, by decide⟩,
   (gate_rate_limit_amended
     { isExtracting := false, lastExtractionUrl := "https://jobs.example/a"
     , lastExtractionTime := 0, extractionCount := 5 }
     30000 "https://jobs.example/b" rfl (by decide) (by decide)).1⟩

end JobTracker
